import Mathlib

/-
Verification of the sentient-scavenger trading engine against its
natural-language specification.

The development shallowly embeds the TypeScript sources:

  * src/sentient-scavenger/src/config.ts           (constants)
  * src/sentient-scavenger/src/services/Whitelist.ts
  * src/sentient-scavenger/src/services/BlockhashManager.ts
  * src/sentient-scavenger/src/services/JitoExecutor.ts
  * SniperEngine (buy/sell)                         (second file of core/Janitor.ts)
  * MigrationListener / SentientBrain               (src/unnamed/part_013)

Machine integers and JS numbers are modelled as Nat/Int/Rat; the one place
where IEEE NaN behaviour is observable (the AI score produced by
SentientBrain.analyzeToken) is modelled by an explicit JSNum type.
Network I/O is passed in as explicit environment data: each RPC or HTTP
call becomes an `Except Unit _` input (error = the call threw), so a
function's control flow can be traced exactly as in the source.
-/

/-! ## Configuration constants (config.ts) -/

def SOL_WAGER_AMOUNT : ℚ := 1/1000

def AI_SCORE_IMMEDIATE_SELL : ℚ := 5

def AI_SCORE_HOLD_LONG : ℚ := 8

def TAKE_PROFIT_LOW : ℚ := 1/2

def TAKE_PROFIT_HIGH : ℚ := 2

def STOP_LOSS_LOW : ℚ := -(1/10)

def STOP_LOSS_HIGH : ℚ := -(3/20)

def BLOCKHASH_POLL_INTERVAL : ℕ := 500

def PRICE_POLL_INTERVAL : ℕ := 1000

def BUNDLE_CONFIRMATION_POLL : ℕ := 500

def BUNDLE_CONFIRMATION_TIMEOUT : ℕ := 30000

def MAX_CABAL_PCT : ℕ := 20

def WHITELIST_TTL_MS : ℕ := 600000

def MOONBAG_THRESHOLD_SOL : ℚ := 6

def MOONBAG_SELL_PCT : ℚ := 4/5

def DEFAULT_TOKEN_DECIMALS : ℕ := 6

def PUMP_MIGRATION_AUTH : String := "39azUYFWPz3VHgKCf3VChUwbpURdCHRxjWVowf5jUJjg"

def WSOL_MINT : String := "So11111111111111111111111111111111111111112"

/-! ## Whitelist (services/Whitelist.ts)

A TTL map from mint to entry, with atomic consume (read + delete).
The JS `Map<string, WhitelistEntry>` is modelled as a list of entries;
`Map.set` replaces the value at an existing key in place (or appends),
`Map.delete` removes the key.  Times are milliseconds as Nat. -/

structure WhitelistEntry where
  mint : String
  decimals : ℕ
  expiresAt : ℕ
deriving Repr, DecidableEq

/-- State of the `entries` map of a Whitelist instance. -/
abbrev WState := List WhitelistEntry

/-- JS Map.set: replace the entry at an existing key, else append. -/
def Whitelist.mapSet : WState → WhitelistEntry → WState
  | [], e => [e]
  | x :: xs, e => if x.mint = e.mint then e :: xs else x :: Whitelist.mapSet xs e

/-- JS Map.delete on key `m`.  A Map holds each key at most once, so
removing every entry with that mint is the same operation on states
reachable from a real Map. -/
def Whitelist.eraseKey (st : WState) (m : String) : WState :=
  st.filter (fun e => !(e.mint = m : Bool))

/-- JS Map.get on key `m`. -/
def Whitelist.lookup (st : WState) (m : String) : Option WhitelistEntry :=
  st.find? (fun e => (e.mint = m : Bool))

/-- Whitelist.prune: delete every entry with `expiresAt <= now`. -/
def Whitelist.prune (now : ℕ) (st : WState) : WState :=
  st.filter (fun e => !(e.expiresAt ≤ now : Bool))

/-- Whitelist.upsert: set `expiresAt = now + ttl` for the mint. -/
def Whitelist.upsert (mint : String) (decimals : ℕ) (now ttl : ℕ) (st : WState) : WState :=
  Whitelist.mapSet st ⟨mint, decimals, now + ttl⟩

/-- Whitelist.consume: prune, then atomically read + delete the entry
(the source computes the pruned map once and reads/deletes on it). -/
def Whitelist.consume (m : String) (now : ℕ) (st : WState) :
    Option WhitelistEntry × WState :=
  match Whitelist.lookup (Whitelist.prune now st) m with
  | some e => (some e, Whitelist.eraseKey (Whitelist.prune now st) m)
  | none => (none, Whitelist.prune now st)

/-- Whitelist.has: prune, then a non-destructive existence check. -/
def Whitelist.has (m : String) (now : ℕ) (st : WState) : Bool × WState :=
  ((Whitelist.prune now st).any (fun e => (e.mint = m : Bool)),
    Whitelist.prune now st)

/-- Whitelist.size: prune, then the number of entries. -/
def Whitelist.size (now : ℕ) (st : WState) : ℕ × WState :=
  ((Whitelist.prune now st).length, Whitelist.prune now st)

/-! ### Operation traces over a Whitelist

Each public operation carries the `Date.now()` value at which it runs.
`wStep` is the state transition of one operation; `wRun` folds a
sequence of operations. -/

inductive WOp where
  | upsertOp (mint : String) (decimals : ℕ) (now : ℕ)
  | consumeOp (mint : String) (now : ℕ)
  | hasOp (mint : String) (now : ℕ)
  | pruneOp (now : ℕ)
  | sizeOp (now : ℕ)
deriving Repr, DecidableEq

/-- Time at which an operation runs. -/
def WOp.time : WOp → ℕ
  | .upsertOp _ _ t => t
  | .consumeOp _ t => t
  | .hasOp _ t => t
  | .pruneOp t => t
  | .sizeOp t => t

/-- Whether an operation is an upsert of mint `m`. -/
def WOp.isUpsertOf (m : String) : WOp → Bool
  | .upsertOp m' _ _ => m' = m
  | _ => false

/-- Whether an operation is a consume of mint `m`. -/
def WOp.isConsumeOf (m : String) : WOp → Bool
  | .consumeOp m' _ => m' = m
  | _ => false

/-- State transition of a single Whitelist operation. -/
def wStep (ttl : ℕ) (st : WState) : WOp → WState
  | .upsertOp m d t => Whitelist.upsert m d t ttl st
  | .consumeOp m t => (Whitelist.consume m t st).2
  | .hasOp m t => (Whitelist.has m t st).2
  | .pruneOp t => Whitelist.prune t st
  | .sizeOp t => (Whitelist.size t st).2

/-- Run a sequence of Whitelist operations. -/
def wRun (ttl : ℕ) (st : WState) (ops : List WOp) : WState :=
  ops.foldl (wStep ttl) st

/-- Key `m` occurs nowhere in the state. -/
def keyAbsent (st : WState) (m : String) : Prop :=
  ∀ e ∈ st, e.mint ≠ m

/-! ### Whitelist lemmas -/

theorem Whitelist.mapSet_mem {st : WState} {e x : WhitelistEntry}
    (h : x ∈ Whitelist.mapSet st e) : x = e ∨ x ∈ st := by
  induction st with
  | nil => simpa [Whitelist.mapSet] using h
  | cons a xs ih =>
    simp only [Whitelist.mapSet] at h
    by_cases hm : a.mint = e.mint
    · simp only [hm, if_pos rfl] at h
      rcases List.mem_cons.mp h with h1 | h1
      · exact Or.inl h1
      · exact Or.inr (List.mem_cons_of_mem a h1)
    · simp only [if_neg hm] at h
      rcases List.mem_cons.mp h with h1 | h1
      · exact Or.inr (h1 ▸ List.mem_cons_self a xs)
      · rcases ih h1 with h2 | h2
        · exact Or.inl h2
        · exact Or.inr (List.mem_cons_of_mem a h2)

theorem Whitelist.mem_mapSet_of_ne {st : WState} {e x : WhitelistEntry}
    (hx : x ∈ st) (hne : x.mint ≠ e.mint) : x ∈ Whitelist.mapSet st e := by
  induction st with
  | nil => cases hx
  | cons a xs ih =>
    simp only [Whitelist.mapSet]
    by_cases hm : a.mint = e.mint
    · simp only [hm, if_pos rfl]
      rcases List.mem_cons.mp hx with h1 | h1
      · exact absurd (h1 ▸ hm) hne
      · exact List.mem_cons_of_mem e h1
    · simp only [if_neg hm]
      rcases List.mem_cons.mp hx with h1 | h1
      · exact h1 ▸ List.mem_cons_self a _
      · exact List.mem_cons_of_mem a (ih h1)

theorem Whitelist.self_mem_mapSet (st : WState) (e : WhitelistEntry) :
    e ∈ Whitelist.mapSet st e := by
  induction st with
  | nil => simp [Whitelist.mapSet]
  | cons a xs ih =>
    simp only [Whitelist.mapSet]
    by_cases hm : a.mint = e.mint
    · simp [hm]
    · simpa [hm] using List.mem_cons_of_mem a ih

theorem Whitelist.mapSet_keyUnique {st : WState} {e x : WhitelistEntry}
    (hnd : (st.map WhitelistEntry.mint).Nodup)
    (hx : x ∈ Whitelist.mapSet st e) (hm : x.mint = e.mint) : x = e := by
  induction st with
  | nil => simpa [Whitelist.mapSet] using hx
  | cons a xs ih =>
    simp only [List.map_cons, List.nodup_cons] at hnd
    simp only [Whitelist.mapSet] at hx
    by_cases ha : a.mint = e.mint
    · simp only [ha, if_pos rfl] at hx
      rcases List.mem_cons.mp hx with h1 | h1
      · exact h1
      · exfalso
        have hmem : x.mint ∈ xs.map WhitelistEntry.mint :=
          List.mem_map_of_mem WhitelistEntry.mint h1
        rw [hm, ← ha] at hmem
        exact hnd.1 hmem
    · simp only [if_neg ha] at hx
      rcases List.mem_cons.mp hx with h1 | h1
      · exact absurd (h1 ▸ hm) ha
      · exact ih hnd.2 h1

theorem Whitelist.mem_prune {st : WState} {e : WhitelistEntry} {t : ℕ}
    (he : e ∈ st) (halive : ¬ e.expiresAt ≤ t) : e ∈ Whitelist.prune t st := by
  simp [Whitelist.prune, List.mem_filter, he, halive]

theorem Whitelist.prune_subset {st : WState} {e : WhitelistEntry} {t : ℕ}
    (h : e ∈ Whitelist.prune t st) : e ∈ st :=
  (List.mem_filter.mp h).1

theorem Whitelist.prune_alive {st : WState} {e : WhitelistEntry} {t : ℕ}
    (h : e ∈ Whitelist.prune t st) : ¬ e.expiresAt ≤ t := by
  have := (List.mem_filter.mp h).2
  simpa using this

theorem Whitelist.mem_eraseKey {st : WState} {e : WhitelistEntry} {m : String}
    (he : e ∈ st) (hne : e.mint ≠ m) : e ∈ Whitelist.eraseKey st m := by
  simp [Whitelist.eraseKey, List.mem_filter, he, hne]

theorem Whitelist.eraseKey_subset {st : WState} {e : WhitelistEntry} {m : String}
    (h : e ∈ Whitelist.eraseKey st m) : e ∈ st :=
  (List.mem_filter.mp h).1

theorem Whitelist.consume_snd_subset {st : WState} {m : String} {t : ℕ}
    {e : WhitelistEntry} (h : e ∈ (Whitelist.consume m t st).2) : e ∈ st := by
  unfold Whitelist.consume at h
  cases hf : Whitelist.lookup (Whitelist.prune t st) m with
  | some e0 =>
    rw [hf] at h
    exact Whitelist.prune_subset (Whitelist.eraseKey_subset h)
  | none =>
    rw [hf] at h
    exact Whitelist.prune_subset h

/-- Any query against a state whose entries for key `m` are all expired at
time `t` comes back empty, both for `has` and for `consume`: both prune
first, and pruning removes every such entry. -/
theorem Whitelist.dead_key_queries (st : WState) (m : String) (t : ℕ)
    (h : ∀ e ∈ st, e.mint = m → e.expiresAt ≤ t) :
    (Whitelist.has m t st).1 = false ∧ (Whitelist.consume m t st).1 = none := by
  have habs : ∀ e ∈ Whitelist.prune t st, e.mint ≠ m := by
    intro e he hm
    exact (Whitelist.prune_alive he) (h e (Whitelist.prune_subset he) hm)
  constructor
  · simp only [Whitelist.has]
    rw [Bool.eq_false_iff]
    intro hany
    rcases List.any_eq_true.mp hany with ⟨e, he, hp⟩
    exact habs e he (by simpa using hp)
  · unfold Whitelist.consume
    have : Whitelist.lookup (Whitelist.prune t st) m = none := by
      apply List.find?_eq_none.mpr
      intro e he
      simpa using habs e he
    rw [this]

/-- After a `consume m`, key `m` is absent from the resulting state,
whether or not an entry was found. -/
theorem Whitelist.keyAbsent_consume (st : WState) (m : String) (t : ℕ) :
    keyAbsent (Whitelist.consume m t st).2 m := by
  intro e he hm
  unfold Whitelist.consume at he
  cases hf : Whitelist.lookup (Whitelist.prune t st) m with
  | some e0 =>
    rw [hf] at he
    have := (List.mem_filter.mp he).2
    simp [hm] at this
  | none =>
    rw [hf] at he
    have := List.find?_eq_none.mp hf e he
    simp [hm] at this

/-- Key absence is preserved by every operation other than an upsert of
that key. -/
theorem keyAbsent_wStep {st : WState} {m : String} {ttl : ℕ} {op : WOp}
    (habs : keyAbsent st m) (hop : op.isUpsertOf m = false) :
    keyAbsent (wStep ttl st op) m := by
  cases op with
  | upsertOp m' d t =>
    intro e he hm
    simp only [WOp.isUpsertOf, decide_eq_false_iff_not] at hop
    rcases Whitelist.mapSet_mem he with h1 | h1
    · exact hop (by rw [← hm, h1])
    · exact habs e h1 hm
  | consumeOp m' t =>
    intro e he hm
    exact habs e (Whitelist.consume_snd_subset he) hm
  | hasOp m' t =>
    intro e he hm
    exact habs e (Whitelist.prune_subset he) hm
  | pruneOp t =>
    intro e he hm
    exact habs e (Whitelist.prune_subset he) hm
  | sizeOp t =>
    intro e he hm
    exact habs e (Whitelist.prune_subset he) hm

theorem keyAbsent_wRun {st : WState} {m : String} {ttl : ℕ} {ops : List WOp}
    (habs : keyAbsent st m) (hops : ∀ op ∈ ops, op.isUpsertOf m = false) :
    keyAbsent (wRun ttl st ops) m := by
  induction ops generalizing st with
  | nil => exact habs
  | cons op rest ih =>
    exact ih (keyAbsent_wStep habs (hops op (List.mem_cons_self op rest)))
      (fun o ho => hops o (List.mem_cons_of_mem op ho))

/-- C3. At-most-once consume: after any `consume(m)` (in particular the
first one that returns an entry), as long as no `upsert(m)` intervenes,
every later `consume(m)` returns no entry and every later `has(m)`
returns false — so at most one consume of `m` can ever return an entry,
and replaying the same migration event cannot trigger a second buy. -/
theorem whitelist_consume_at_most_once (ttl : ℕ) (st : WState) (m : String)
    (t : ℕ) (mid : List WOp) (t' : ℕ)
    (hmid : ∀ op ∈ mid, op.isUpsertOf m = false) :
    (Whitelist.consume m t' (wRun ttl (Whitelist.consume m t st).2 mid)).1 = none ∧
    (Whitelist.has m t' (wRun ttl (Whitelist.consume m t st).2 mid)).1 = false := by
  have habs : keyAbsent (wRun ttl (Whitelist.consume m t st).2 mid) m :=
    keyAbsent_wRun (Whitelist.keyAbsent_consume st m t) hmid
  have hdead := Whitelist.dead_key_queries
    (wRun ttl (Whitelist.consume m t st).2 mid) m t'
    (fun e he hm => absurd hm (habs e he))
  exact ⟨hdead.2, hdead.1⟩

/-! ### TTL expiry (C7) -/

/-- Every entry of key `m` in the state has expiry exactly `v`. -/
def keyOnly (st : WState) (m : String) (v : ℕ) : Prop :=
  ∀ e ∈ st, e.mint = m → e.expiresAt = v

theorem keyOnly_upsert {st : WState} {m : String} {d T ttl : ℕ}
    (hnd : (st.map WhitelistEntry.mint).Nodup) :
    keyOnly (Whitelist.upsert m d T ttl st) m (T + ttl) := by
  intro e he hm
  have : e = (⟨m, d, T + ttl⟩ : WhitelistEntry) :=
    Whitelist.mapSet_keyUnique hnd he hm
  rw [this]

theorem keyOnly_wStep {st : WState} {m : String} {v ttl : ℕ} {op : WOp}
    (h : keyOnly st m v) (hop : op.isUpsertOf m = false) :
    keyOnly (wStep ttl st op) m v := by
  cases op with
  | upsertOp m' d t =>
    intro e he hm
    simp only [WOp.isUpsertOf, decide_eq_false_iff_not] at hop
    rcases Whitelist.mapSet_mem he with h1 | h1
    · exact absurd (by rw [← hm, h1]) hop
    · exact h e h1 hm
  | consumeOp m' t =>
    intro e he hm
    exact h e (Whitelist.consume_snd_subset he) hm
  | hasOp m' t =>
    intro e he hm
    exact h e (Whitelist.prune_subset he) hm
  | pruneOp t =>
    intro e he hm
    exact h e (Whitelist.prune_subset he) hm
  | sizeOp t =>
    intro e he hm
    exact h e (Whitelist.prune_subset he) hm

theorem keyOnly_wRun {st : WState} {m : String} {v ttl : ℕ} {ops : List WOp}
    (h : keyOnly st m v) (hops : ∀ op ∈ ops, op.isUpsertOf m = false) :
    keyOnly (wRun ttl st ops) m v := by
  induction ops generalizing st with
  | nil => exact h
  | cons op rest ih =>
    exact ih (keyOnly_wStep h (hops op (List.mem_cons_self op rest)))
      (fun o ho => hops o (List.mem_cons_of_mem op ho))

/-- A still-live entry of key `m` survives any operation that is neither
an upsert nor a consume of `m` and runs before the entry expires. -/
theorem entry_survives_wStep {st : WState} {e : WhitelistEntry} {m : String}
    {ttl : ℕ} {op : WOp} (he : e ∈ st) (hm : e.mint = m)
    (hup : op.isUpsertOf m = false) (hco : op.isConsumeOf m = false)
    (htime : op.time < e.expiresAt) : e ∈ wStep ttl st op := by
  have halive : ¬ e.expiresAt ≤ op.time := Nat.not_le.mpr htime
  cases op with
  | upsertOp m' d t =>
    simp only [WOp.isUpsertOf, decide_eq_false_iff_not] at hup
    exact Whitelist.mem_mapSet_of_ne he (by rw [hm]; exact fun h => hup h.symm)
  | consumeOp m' t =>
    simp only [WOp.isConsumeOf, decide_eq_false_iff_not] at hco
    have h1 : e ∈ Whitelist.prune t st := Whitelist.mem_prune he halive
    show e ∈ (Whitelist.consume m' t st).2
    unfold Whitelist.consume
    cases hf : Whitelist.lookup (Whitelist.prune t st) m' with
    | some e0 =>
      exact Whitelist.mem_eraseKey h1 (by rw [hm]; exact fun h => hco h.symm)
    | none => exact h1
  | hasOp m' t => exact Whitelist.mem_prune he halive
  | pruneOp t => exact Whitelist.mem_prune he halive
  | sizeOp t => exact Whitelist.mem_prune he halive

theorem entry_survives_wRun {st : WState} {e : WhitelistEntry} {m : String}
    {ttl : ℕ} {ops : List WOp} (he : e ∈ st) (hm : e.mint = m)
    (hops : ∀ op ∈ ops, op.isUpsertOf m = false ∧ op.isConsumeOf m = false ∧
      op.time < e.expiresAt) : e ∈ wRun ttl st ops := by
  induction ops generalizing st with
  | nil => exact he
  | cons op rest ih =>
    have h1 := hops op (List.mem_cons_self op rest)
    exact ih (entry_survives_wStep he hm h1.1 h1.2.1 h1.2.2)
      (fun o ho => hops o (List.mem_cons_of_mem op ho))

/-- C7. TTL expiry: an entry upserted at time `T` with TTL `ttl` that is
not re-upserted or consumed by any of the intervening operations
(whose clocks do not run past the query time `tq`) is absent from both
`has` and `consume` at any query time `tq ≥ T + ttl`, and present in
both at any query time `tq < T + ttl`.  The initial state is any state
a JS `Map` can be in (one entry per key). -/
theorem whitelist_ttl_expiry (ttl : ℕ) (st : WState) (m : String) (d : ℕ)
    (T : ℕ) (mid : List WOp) (tq : ℕ)
    (hnd : (st.map WhitelistEntry.mint).Nodup)
    (hup : ∀ op ∈ mid, op.isUpsertOf m = false)
    (hco : ∀ op ∈ mid, op.isConsumeOf m = false)
    (htime : ∀ op ∈ mid, op.time ≤ tq) :
    (T + ttl ≤ tq →
      (Whitelist.has m tq (wRun ttl (Whitelist.upsert m d T ttl st) mid)).1
        = false ∧
      (Whitelist.consume m tq (wRun ttl (Whitelist.upsert m d T ttl st) mid)).1
        = none) ∧
    (tq < T + ttl →
      (Whitelist.has m tq (wRun ttl (Whitelist.upsert m d T ttl st) mid)).1
        = true ∧
      ((Whitelist.consume m tq
        (wRun ttl (Whitelist.upsert m d T ttl st) mid)).1).isSome = true) := by
  constructor
  · intro hexp
    have honly : keyOnly (wRun ttl (Whitelist.upsert m d T ttl st) mid) m
        (T + ttl) :=
      keyOnly_wRun (keyOnly_upsert hnd) hup
    have hdead := Whitelist.dead_key_queries
      (wRun ttl (Whitelist.upsert m d T ttl st) mid) m tq
      (fun e he hm => (honly e he hm) ▸ hexp)
    exact ⟨hdead.1, hdead.2⟩
  · intro hlive
    have hen : (⟨m, d, T + ttl⟩ : WhitelistEntry)
        ∈ wRun ttl (Whitelist.upsert m d T ttl st) mid := by
      apply entry_survives_wRun (Whitelist.self_mem_mapSet st _) rfl
      intro op hop
      exact ⟨hup op hop, hco op hop,
        Nat.lt_of_le_of_lt (htime op hop) hlive⟩
    have hsurv : (⟨m, d, T + ttl⟩ : WhitelistEntry)
        ∈ Whitelist.prune tq (wRun ttl (Whitelist.upsert m d T ttl st) mid) :=
      Whitelist.mem_prune hen (Nat.not_le.mpr hlive)
    constructor
    · simp only [Whitelist.has]
      apply List.any_eq_true.mpr
      exact ⟨_, hsurv, by simp⟩
    · unfold Whitelist.consume
      cases hf : Whitelist.lookup
          (Whitelist.prune tq (wRun ttl (Whitelist.upsert m d T ttl st) mid))
          m with
      | some e0 => simp
      | none =>
        exfalso
        have := List.find?_eq_none.mp hf _ hsurv
        simp at this

/-! ### Concrete names used by witnesses -/

def MINT_A : String := "mintA"

def MINT_B : String := "mintB"

def HASH_A : String := "hashA"

def BUNDLE_A : String := "bundleA"

/-- Witness for C3 at a concrete trace: an entry for `MINT_A` is consumed
at t=100; after an unrelated upsert and a prune, both a second consume
and a has at t=400 come back empty. -/
theorem whitelist_consume_at_most_once_witness :
    (∀ op ∈ [WOp.upsertOp MINT_B 6 200, WOp.pruneOp 300],
      op.isUpsertOf MINT_A = false) ∧
    (Whitelist.consume MINT_A 400
      (wRun 1000 (Whitelist.consume MINT_A 100 [⟨MINT_A, 6, 500⟩]).2
        [WOp.upsertOp MINT_B 6 200, WOp.pruneOp 300])).1 = none ∧
    (Whitelist.has MINT_A 400
      (wRun 1000 (Whitelist.consume MINT_A 100 [⟨MINT_A, 6, 500⟩]).2
        [WOp.upsertOp MINT_B 6 200, WOp.pruneOp 300])).1 = false := by
  refine ⟨by decide, ?_, ?_⟩
  · exact (whitelist_consume_at_most_once 1000 [⟨MINT_A, 6, 500⟩] MINT_A 100
      [WOp.upsertOp MINT_B 6 200, WOp.pruneOp 300] 400 (by decide)).1
  · exact (whitelist_consume_at_most_once 1000 [⟨MINT_A, 6, 500⟩] MINT_A 100
      [WOp.upsertOp MINT_B 6 200, WOp.pruneOp 300] 400 (by decide)).2

/-- Witness for C7 at a concrete input: an entry upserted at T=0 with
TTL 1000 is present at t=500 and absent at t=1200. -/
theorem whitelist_ttl_expiry_witness :
    (Whitelist.has MINT_A 500
      (wRun 1000 (Whitelist.upsert MINT_A 6 0 1000 []) [])).1 = true ∧
    (Whitelist.has MINT_A 1200
      (wRun 1000 (Whitelist.upsert MINT_A 6 0 1000 []) [])).1 = false := by
  constructor
  · exact ((whitelist_ttl_expiry 1000 [] MINT_A 6 0 [] 500 (by decide)
      (by simp) (by simp) (by simp)).2 (by decide)).1
  · exact ((whitelist_ttl_expiry 1000 [] MINT_A 6 0 [] 1200 (by decide)
      (by simp) (by simp) (by simp)).1 (by decide)).1

/-! ## Blockhash cache (services/BlockhashManager.ts)

The module-level mutable `latestBlockHash` is modelled as an
`Option BHCache` value threaded through the polling functions.  The
result of `connection.getLatestBlockhash` is an input:
`Except.error` means the RPC call threw. -/

structure BHCache where
  blockhash : String
  lastValidBlockHeight : ℕ
  timestamp : ℕ
deriving Repr, DecidableEq

/-- updateBlockhash: on RPC success replace the cached tuple; the
`catch` swallows any RPC error, leaving the cache unchanged — the
function itself never throws, which the outer `Except` layer records
by always returning `.ok`. -/
def updateBlockhash (res : Except Unit (String × ℕ)) (now : ℕ)
    (cache : Option BHCache) : Except Unit (Option BHCache) :=
  .ok (match res with
    | .ok (bh, h) => some ⟨bh, h, now⟩
    | .error _ => cache)

/-- One iteration of pollBlockhash: run updateBlockhash in a try/catch;
on normal return schedule the next poll after the standard interval, on
a thrown error schedule it after five times the interval.  Returns the
new cache and the delay passed to setTimeout. -/
def pollBlockhash (res : Except Unit (String × ℕ)) (now : ℕ)
    (cache : Option BHCache) : Option BHCache × ℕ :=
  match updateBlockhash res now cache with
  | .ok c => (c, BLOCKHASH_POLL_INTERVAL)
  | .error _ => (cache, BLOCKHASH_POLL_INTERVAL * 5)

/-- getCachedBlockhash: null only while no fetch has ever succeeded;
a stale value (older than 2s) is returned anyway. -/
def getCachedBlockhash (now : ℕ) (cache : Option BHCache) :
    Option (String × ℕ) :=
  match cache with
  | none => none
  | some c =>
    if now - c.timestamp < 2000 then some (c.blockhash, c.lastValidBlockHeight)
    else some (c.blockhash, c.lastValidBlockHeight)

/-- C9. Failing-input evaluation: when the RPC call of a poll iteration
throws, the cached tuple is retained unchanged (as the claim says), but
the next poll is scheduled after the standard 500 ms interval, not the
claimed 5x backoff (2500 ms): `updateBlockhash` swallows the error
internally, so the backoff branch of `pollBlockhash` is unreachable.
Readers still receive the retained value. -/
theorem pollBlockhash_failure_no_backoff :
    pollBlockhash (Except.error ()) 1000 (some ⟨HASH_A, 5, 900⟩)
      = (some ⟨HASH_A, 5, 900⟩, 500) ∧
    BLOCKHASH_POLL_INTERVAL * 5 = 2500 ∧
    (pollBlockhash (Except.error ()) 1000 (some ⟨HASH_A, 5, 900⟩)).2 ≠ 2500 ∧
    getCachedBlockhash 1000
      (pollBlockhash (Except.error ()) 1000 (some ⟨HASH_A, 5, 900⟩)).1
      = some (HASH_A, 5) := by
  refine ⟨rfl, rfl, by decide, rfl⟩

/-! ## AI scoring (SentientBrain.analyzeToken)

JS numbers reaching `Math.max(1, Math.min(10, parsed.score))` can be
NaN (a missing or non-numeric `score` field coerces to NaN), and both
Math.min and Math.max propagate NaN.  `JSNum` models exactly this. -/

inductive JSNum where
  | nan
  | num (q : ℚ)
deriving Repr, DecidableEq

/-- Math.min: NaN-propagating minimum. -/
def jsMin : JSNum → JSNum → JSNum
  | .num a, .num b => .num (min a b)
  | _, _ => .nan

/-- Math.max: NaN-propagating maximum. -/
def jsMax : JSNum → JSNum → JSNum
  | .num a, .num b => .num (max a b)
  | _, _ => .nan

/-- JS `<`: false whenever either side is NaN. -/
def jsLt : JSNum → JSNum → Bool
  | .num a, .num b => a < b
  | _, _ => false

/-- JS `>`: false whenever either side is NaN. -/
def jsGt : JSNum → JSNum → Bool
  | .num a, .num b => b < a
  | _, _ => false

def MAX_RETRIES : ℕ := 3

/-- One attempt of the analyzeToken retry loop, as seen after the
oracle response is received and processed:

  * `apiFail`   — the API call threw or the 15 s circuit breaker fired;
  * `parseFail` — the response text failed `JSON.parse`
                  (the catch rethrows as "JSON Parse Error");
  * `parsed f`  — `JSON.parse` succeeded; `f` is the numeric coercion
                  of the `score` field (`none` when the field is absent,
                  whose coercion is NaN). -/
inductive OracleAttempt where
  | apiFail
  | parseFail
  | parsed (scoreField : Option JSNum)
deriving Repr, DecidableEq

/-- Body of one try-block iteration: `some s` means the iteration
returned score `s`; `none` means it threw and the loop retries. -/
def analyzeAttempt : OracleAttempt → Option JSNum
  | .apiFail => none
  | .parseFail => none
  | .parsed f => some (jsMax (.num 1) (jsMin (.num 10) (f.getD .nan)))

/-- SentientBrain.analyzeToken: the `while (attempt < MAX_RETRIES)` loop
unrolled for MAX_RETRIES = 3; after the last failed attempt the
function returns the neutral score 5. -/
def analyzeToken (attempts : ℕ → OracleAttempt) : JSNum :=
  match analyzeAttempt (attempts 0) with
  | some s => s
  | none =>
    match analyzeAttempt (attempts 1) with
    | some s => s
    | none =>
      match analyzeAttempt (attempts 2) with
      | some s => s
      | none => .num 5

/-- A numeric score between 1 and 10, as the spec requires. -/
def scoreInRange (s : JSNum) : Prop :=
  ∃ q, s = JSNum.num q ∧ 1 ≤ q ∧ q ≤ 10

/-- C8 counterexample: an oracle response that is valid JSON without a
`score` field (e.g. the literal text of an empty object) parses fine,
so no retry or fallback fires, and `Math.max(1, Math.min(10,
undefined))` evaluates to NaN — analyzeToken returns NaN, not a score
in [1, 10] and not the neutral 5. -/
theorem analyzeToken_missing_score_nan :
    analyzeToken (fun _ => .parsed none) = JSNum.nan ∧
    ¬ scoreInRange (analyzeToken (fun _ => .parsed none)) := by
  refine ⟨rfl, ?_⟩
  rintro ⟨q, hq, -, -⟩
  rw [show analyzeToken (fun _ => .parsed none) = JSNum.nan from rfl] at hq
  exact JSNum.noConfusion hq

theorem analyzeAttempt_inRange {a : OracleAttempt} {s : JSNum}
    (h : ∀ f, a = .parsed f → ∃ q, f.getD JSNum.nan = JSNum.num q)
    (hs : analyzeAttempt a = some s) : scoreInRange s := by
  cases a with
  | apiFail => exact absurd hs (by simp [analyzeAttempt])
  | parseFail => exact absurd hs (by simp [analyzeAttempt])
  | parsed f =>
    rcases h f rfl with ⟨q, hq⟩
    simp only [analyzeAttempt, hq, Option.some_inj] at hs
    refine ⟨max 1 (min 10 q), ?_, le_max_left _ _,
      max_le (by norm_num) (le_trans (min_le_left _ _) le_rfl)⟩
    rw [← hs]
    rfl

/-- C8 amended: analyzeToken never crashes; whenever every
successfully-parsed oracle output carries a numeric `score` field, the
returned value is a numeric score in [1, 10] (clamped), and when all
three attempts fail (oracle unavailable, or output unparseable), it is
exactly the neutral score 5.  (A parseable output whose `score` field
is missing or non-numeric instead yields NaN, per the counterexample.) -/
theorem analyzeToken_range (attempts : ℕ → OracleAttempt)
    (hnum : ∀ i < MAX_RETRIES, ∀ f, attempts i = .parsed f →
      ∃ q, f.getD JSNum.nan = JSNum.num q) :
    scoreInRange (analyzeToken attempts) ∧
    ((∀ i < MAX_RETRIES, analyzeAttempt (attempts i) = none) →
      analyzeToken attempts = JSNum.num 5) := by
  constructor
  · unfold analyzeToken
    cases h0 : analyzeAttempt (attempts 0) with
    | some s => exact analyzeAttempt_inRange (hnum 0 (by decide)) h0
    | none =>
      cases h1 : analyzeAttempt (attempts 1) with
      | some s => exact analyzeAttempt_inRange (hnum 1 (by decide)) h1
      | none =>
        cases h2 : analyzeAttempt (attempts 2) with
        | some s => exact analyzeAttempt_inRange (hnum 2 (by decide)) h2
        | none => exact ⟨5, rfl, by norm_num, by norm_num⟩
  · intro hall
    unfold analyzeToken
    rw [hall 0 (by decide), hall 1 (by decide), hall 2 (by decide)]

/-- Witness for C8's amended theorem: a numeric score 7 on the second
attempt is returned in range; an oracle that always times out yields
exactly 5. -/
theorem analyzeToken_range_witness :
    scoreInRange (analyzeToken
      (fun i => if i = 0 then .apiFail else .parsed (some (.num 7)))) ∧
    analyzeToken (fun _ => OracleAttempt.apiFail) = JSNum.num 5 := by
  constructor
  · exact (analyzeToken_range _ (by
      intro i hi f hf
      by_cases h0 : i = 0
      · rw [h0] at hf
        exact absurd hf (by simp)
      · simp only [h0, if_false] at hf
        cases hf
        exact ⟨7, rfl⟩)).1
  · exact (analyzeToken_range _ (by
      intro i hi f hf
      exact OracleAttempt.noConfusion hf)).2 (fun i hi => rfl)

/-! ## Execution layer (services/JitoExecutor.ts) -/

structure BundleStatus where
  bundleId : String
  confirmed : Bool
  slot : Option ℕ := none
  error : Option String := none
deriving Repr, DecidableEq

def CONFIRMED_STR : String := "confirmed"

def FINALIZED_STR : String := "finalized"

def CONFIRMATION_TIMEOUT_MSG : String := "Confirmation timeout"

def DRY_RUN_BUNDLE_HEAD : String := "DRY_RUN_BUNDLE"

/-- JS String.prototype.startsWith, as a character-list prefix test. -/
def strStartsWith (s p : String) : Bool :=
  p.data.isPrefixOf s.data

def DRY_RUN_BUNDLE_ID : String := "DRY_RUN_BUNDLE_ID"

/-- Whether a getBundleStatuses response carries a terminal
confirmation_status field. -/
def isTerminalStatus (s : Option String) : Bool :=
  s == some CONFIRMED_STR || s == some FINALIZED_STR

/-- Maximum polling attempts: floor(timeout / poll interval) = 60. -/
def maxPollAttempts : ℕ :=
  BUNDLE_CONFIRMATION_TIMEOUT / BUNDLE_CONFIRMATION_POLL

/-- JitoExecutor.pollBundleConfirmation: the background poller.
`responses n` is the `confirmation_status` carried by the n-th
getBundleStatuses call (`none` when the call failed or carried no
terminal value; both paths consume one attempt).  The poller resolves
with `confirmed = true` on the first terminal response within
`maxPollAttempts` attempts, else with the timeout status. -/
def pollBundleConfirmation (bid : String) (responses : ℕ → Option String) :
    BundleStatus :=
  match (List.range maxPollAttempts).find?
      (fun n => isTerminalStatus (responses n)) with
  | some _ => { bundleId := bid, confirmed := true, slot := some 0 }
  | none => { bundleId := bid, confirmed := false,
              error := some CONFIRMATION_TIMEOUT_MSG }

/-- JitoExecutor.waitForBundleStatus: dry-run bundle ids resolve
confirmed immediately; otherwise the waiter receives the status the
poller resolved (`resolved`), or throws if even the waiter's own
timeout elapses first (`resolved = none`). -/
def waitForBundleStatus (bid : String) (resolved : Option BundleStatus) :
    Except Unit BundleStatus :=
  if strStartsWith bid DRY_RUN_BUNDLE_HEAD then
    .ok { bundleId := bid, confirmed := true, slot := some 0 }
  else
    match resolved with
    | some st => .ok st
    | none => .error ()

/-! ## SniperEngine.buy (core, second file of Janitor.ts)

Everything before the dual submission — wSOL preparation, ATA creation,
slippage bound, transaction assembly from the cached blockhash — can
throw and is summarized by `prepOk` (the outer catch returns null on
any throw).  The Jito submission result, the Sender acknowledgement and
the poller's resolution are environment inputs. -/

structure BuyEnv where
  prepOk : Bool
  jitoBundle : Option String
  senderSig : Option String
  resolved : Option BundleStatus
  dryRun : Bool
deriving Repr, DecidableEq

/-- SniperEngine.buy: returns the bundle id only when the Jito bundle
was submitted and its confirmation resolved `confirmed = true`;
a `confirmed = false` resolution or a waiter throw returns null.  With
no Jito bundle at all, dry-run mode fabricates an id, otherwise null. -/
def SniperEngine.buy (env : BuyEnv) : Option String :=
  if env.prepOk = false then none
  else
    match env.jitoBundle with
    | some bid =>
      match waitForBundleStatus bid env.resolved with
      | .ok st => if st.confirmed then some bid else none
      | .error _ => none
    | none => if env.dryRun then some DRY_RUN_BUNDLE_ID else none

/-! ## Migration listener (MigrationListener, src/unnamed/part_013)

processMigrationLog is modelled as a function of its environment: the
transaction fetch, the mint-account read, the cabal and metadata RPC
results, and the buy environment.  Its result is the outcome record of
one processed event plus the updated whitelist state. -/

/-- An element of `tx.transaction.signatures`: either an object exposing
a `publicKey` (legacy shape, first guard of the `some`) or a plain
string compared directly against the authority. -/
inductive SigEntry where
  | withKey (pubkey : String)
  | raw (s : String)
deriving Repr, DecidableEq

/-- One disjunct of the trap check's `signatures.some(...)`. -/
def sigMatchesAuth : SigEntry → Bool
  | .withKey pk => pk == PUMP_MIGRATION_AUTH
  | .raw s => s == PUMP_MIGRATION_AUTH

/-- Trap check: some signature entry matches PUMP_MIGRATION_AUTH. -/
def hasAuth (sigs : List SigEntry) : Bool :=
  sigs.any sigMatchesAuth

/-- A fetched transaction: static account keys and signature entries. -/
structure TxData where
  accountKeys : List String
  signatures : List SigEntry
deriving Repr, DecidableEq

def EMPTY_STR : String := ""

/-- The subset of LiquidityPoolKeysV4 filled from the transaction's
account list (the remaining fields are constants/defaults). -/
structure PoolKeysM where
  id : String
  authority : String
  openOrders : String
  lpMint : String
  baseMint : String
  quoteMint : String
  baseVault : String
  quoteVault : String
  targetOrders : String
  marketProgramId : String
  marketId : String
deriving Repr, DecidableEq

/-- MigrationListener.parsePoolKeysFromTx: fixed Raydium initialize2
account-index layout; null when fewer than 16 keys.  Account keys of a
fetched transaction are valid base58, so the PublicKey constructor
inside the try cannot throw. -/
def parsePoolKeysFromTx (keys : List String) : Option PoolKeysM :=
  if keys.length < 16 then none
  else some
    { id := keys.getD 3 EMPTY_STR
      authority := keys.getD 4 EMPTY_STR
      openOrders := keys.getD 5 EMPTY_STR
      lpMint := keys.getD 6 EMPTY_STR
      baseMint := keys.getD 7 EMPTY_STR
      quoteMint := keys.getD 8 EMPTY_STR
      baseVault := keys.getD 9 EMPTY_STR
      quoteVault := keys.getD 10 EMPTY_STR
      targetOrders := keys.getD 11 EMPTY_STR
      marketProgramId := keys.getD 14 EMPTY_STR
      marketId := keys.getD 15 EMPTY_STR }

/-- The traded mint: whichever of baseMint/quoteMint is not wrapped SOL. -/
def selectMint (pk : PoolKeysM) : String :=
  if pk.baseMint == WSOL_MINT then pk.quoteMint else pk.baseMint

/-- SPL mint account bytes as read by the authority check. -/
structure MintAcctInfo where
  dataLen : ℕ
  mintAuthorityTag : ℕ
  freezeAuthorityTag : ℕ
deriving Repr, DecidableEq

/-- The listener's inline mint/freeze-authority re-check: aborts only
when the account info was fetched, is long enough, and either
authority tag is non-zero.  A thrown RPC error (`Except.error`) or a
missing/short account does not abort (fail-open). -/
def authorityStillEnabled (res : Except Unit (Option MintAcctInfo)) : Bool :=
  match res with
  | .ok (some info) =>
    decide (82 ≤ info.dataLen) &&
      (decide (info.mintAuthorityTag ≠ 0) || decide (info.freezeAuthorityTag ≠ 0))
  | .ok none => false
  | .error _ => false

/-- Raw data behind MigrationListener.checkCabal: the largest token
account amounts and the total supply. -/
structure CabalData where
  largestAccounts : List ℕ
  supply : ℕ
deriving Repr, DecidableEq

/-- The insider-sum loop: walk the descending amounts, skip accounts
holding more than 30% (3000 bps) of supply, and sum the first 10
counted. -/
def cabalInsiderSum (supply : ℕ) : List ℕ → ℕ → ℕ → ℕ
  | [], _, s => s
  | a :: rest, counted, s =>
    if counted < 10 then
      if a * 10000 / supply > 3000 then cabalInsiderSum supply rest counted s
      else cabalInsiderSum supply rest (counted + 1) (s + a)
    else s

/-- MigrationListener.checkCabal: true = safe.  Returns true when the
RPC pair throws (fail-open), when there are no accounts, or when the
supply is unreadable; otherwise safe iff insiders hold at most 20%
(2000 basis points, integer BigInt division as in the source). -/
def checkCabal (res : Except Unit CabalData) : Bool :=
  match res with
  | .error _ => true
  | .ok d =>
    if d.largestAccounts.isEmpty then true
    else if d.supply = 0 then true
    else
      decide ((cabalInsiderSum d.supply
          (List.mergeSort d.largestAccounts (fun a b => decide (b ≤ a))) 0 0)
            * 10000 / d.supply ≤ 2000)

def UNKNOWN_NAME : String := "Unknown"

def UNKNOWN_SYMBOL : String := "???"

/-- Token metadata as extracted from the getAsset response. -/
structure AssetMeta where
  hasTwitter : Bool
  hasTelegram : Bool
  name : String
  symbol : String
  description : String
deriving Repr, DecidableEq

/-- MigrationListener.checkMetadata: safe iff a Twitter or Telegram
link is present; a thrown request resolves safe with default metadata
(fail-open). -/
def checkMetadata (res : Except Unit AssetMeta) : Bool × AssetMeta :=
  match res with
  | .ok a => (a.hasTwitter || a.hasTelegram, a)
  | .error _ => (true, ⟨false, false, UNKNOWN_NAME, UNKNOWN_SYMBOL, EMPTY_STR⟩)

/-- What one call of processMigrationLog did. -/
structure ListenerOutcome where
  txFetched : Bool := false
  trapPassed : Bool := false
  poolKeysParsed : Bool := false
  consumeAttempted : Bool := false
  consumed : Bool := false
  authorityAborted : Bool := false
  cabalAborted : Bool := false
  metaAborted : Bool := false
  buyAttempted : Bool := false
  bundleId : Option String := none
  recordPositionInvoked : Bool := false
deriving Repr, DecidableEq

/-- Environment of one processMigrationLog call. -/
structure ListenerEnv where
  tx : Option TxData
  now : ℕ
  relaxFilters : Bool
  mintAcctRes : Except Unit (Option MintAcctInfo)
  cabalRes : Except Unit CabalData
  metaRes : Except Unit AssetMeta
  buyEnv : BuyEnv

/-- MigrationListener.processMigrationLog: fetch the transaction, trap
check, parse pool keys, consume the whitelist entry, re-check mint
authorities, run the paranoia checks (unless RELAX_FILTERS), buy, and
— only when buy returned a bundle id — hand off to the brain
(analyzeToken followed by recordPosition). -/
def processMigrationLog (env : ListenerEnv) (wl : WState) :
    ListenerOutcome × WState :=
  match env.tx with
  | none => ({}, wl)
  | some txd =>
    if hasAuth txd.signatures = false then ({ txFetched := true }, wl)
    else
      match parsePoolKeysFromTx txd.accountKeys with
      | none => ({ txFetched := true, trapPassed := true }, wl)
      | some pk =>
        match Whitelist.consume (selectMint pk) env.now wl with
        | (none, wl2) =>
          ({ txFetched := true, trapPassed := true, poolKeysParsed := true,
             consumeAttempted := true }, wl2)
        | (some _, wl2) =>
          if authorityStillEnabled env.mintAcctRes then
            ({ txFetched := true, trapPassed := true, poolKeysParsed := true,
               consumeAttempted := true, consumed := true,
               authorityAborted := true }, wl2)
          else if !env.relaxFilters && !(checkCabal env.cabalRes) then
            ({ txFetched := true, trapPassed := true, poolKeysParsed := true,
               consumeAttempted := true, consumed := true,
               cabalAborted := true }, wl2)
          else if !env.relaxFilters && !((checkMetadata env.metaRes).1) then
            ({ txFetched := true, trapPassed := true, poolKeysParsed := true,
               consumeAttempted := true, consumed := true,
               metaAborted := true }, wl2)
          else
            ({ txFetched := true, trapPassed := true, poolKeysParsed := true,
               consumeAttempted := true, consumed := true,
               buyAttempted := true,
               bundleId := SniperEngine.buy env.buyEnv,
               recordPositionInvoked := (SniperEngine.buy env.buyEnv).isSome },
              wl2)

/-! ### Listener theorems -/

theorem recordPosition_needs_bundle (env : ListenerEnv) (wl : WState)
    (hbuy : SniperEngine.buy env.buyEnv = none) :
    (processMigrationLog env wl).1.recordPositionInvoked = false := by
  unfold processMigrationLog
  repeat' split
  all_goals try rfl
  all_goals simp [hbuy]

/-- C6. Trap check: for an event whose transaction was fetched,
processing reaches the steps after the authority gate exactly when the
signature list matches the migration authority; an event failing the
trap check is discarded with no whitelist consume, no buy, no
recordPosition, and an unchanged whitelist. -/
theorem migration_trap_check (env : ListenerEnv) (txd : TxData) (wl : WState)
    (htx : env.tx = some txd) :
    (processMigrationLog env wl).1.trapPassed = hasAuth txd.signatures ∧
    (hasAuth txd.signatures = false →
      (processMigrationLog env wl).1.consumeAttempted = false ∧
      (processMigrationLog env wl).1.buyAttempted = false ∧
      (processMigrationLog env wl).1.recordPositionInvoked = false ∧
      (processMigrationLog env wl).2 = wl) := by
  unfold processMigrationLog
  rw [htx]
  dsimp only
  constructor
  · cases ha : hasAuth txd.signatures with
    | false => simp
    | true =>
      rw [if_neg (by simp)]
      repeat' split
      all_goals rfl
  · intro hfalse
    rw [hfalse]
    simp

/-- C1. Confirmation gating: whenever the Jito bundle of a (non-dry-run)
buy has its confirmation resolve with `confirmed = false` — the
poller's timeout resolution — or the waiter itself times out, the buy
returns no bundle identifier, and the listener never invokes
recordPosition for that event, so no position can be created from it. -/
theorem buy_confirmation_gating (env : ListenerEnv) (wl : WState)
    (bid : String)
    (hjito : env.buyEnv.jitoBundle = some bid)
    (hreal : strStartsWith bid DRY_RUN_BUNDLE_HEAD = false)
    (hres : env.buyEnv.resolved = none ∨
      ∃ st, env.buyEnv.resolved = some st ∧ st.confirmed = false) :
    SniperEngine.buy env.buyEnv = none ∧
    (processMigrationLog env wl).1.recordPositionInvoked = false := by
  have hbuy : SniperEngine.buy env.buyEnv = none := by
    unfold SniperEngine.buy
    by_cases hp : env.buyEnv.prepOk = false
    · rw [if_pos hp]
    · rw [if_neg hp, hjito]
      dsimp only
      unfold waitForBundleStatus
      rw [hreal, if_neg (by simp)]
      rcases hres with h | ⟨st, hst, hc⟩
      · rw [h]
      · rw [hst]
        simp [hc]
  exact ⟨hbuy, recordPosition_needs_bundle env wl hbuy⟩

/-- C10. Listener defenses fail open: a thrown holder-concentration
check resolves safe, a thrown metadata request resolves safe, and a
thrown mint/freeze re-check does not abort; when all three paths throw
(and the other gates pass) processing proceeds all the way to the buy. -/
theorem listener_checks_fail_open :
    checkCabal (Except.error ()) = true ∧
    (checkMetadata (Except.error ())).1 = true ∧
    (∀ (env : ListenerEnv) (txd : TxData) (pk : PoolKeysM) (wl : WState)
      (entry : WhitelistEntry) (wl2 : WState),
      env.tx = some txd →
      hasAuth txd.signatures = true →
      parsePoolKeysFromTx txd.accountKeys = some pk →
      Whitelist.consume (selectMint pk) env.now wl = (some entry, wl2) →
      env.relaxFilters = false →
      env.mintAcctRes = Except.error () →
      env.cabalRes = Except.error () →
      env.metaRes = Except.error () →
      (processMigrationLog env wl).1.buyAttempted = true ∧
      (processMigrationLog env wl).1.authorityAborted = false ∧
      (processMigrationLog env wl).1.cabalAborted = false ∧
      (processMigrationLog env wl).1.metaAborted = false) := by
  refine ⟨rfl, rfl, ?_⟩
  intro env txd pk wl entry wl2 htx ha hpk hcons hrelax hmint hcabal hmeta
  unfold processMigrationLog
  rw [htx]
  dsimp only
  rw [ha, if_neg (by simp), hpk]
  dsimp only
  rw [hcons]
  dsimp only
  rw [hmint, hrelax, hcabal, hmeta]
  simp [authorityStillEnabled, checkCabal, checkMetadata]

/-! ### Concrete listener environments for the witnesses -/

def txdGood : TxData :=
  { accountKeys := List.replicate 16 MINT_B
    signatures := [SigEntry.withKey PUMP_MIGRATION_AUTH] }

def txdForged : TxData :=
  { accountKeys := List.replicate 16 MINT_B
    signatures := [SigEntry.raw MINT_B] }

def pkGood : PoolKeysM :=
  { id := MINT_B, authority := MINT_B, openOrders := MINT_B, lpMint := MINT_B
    baseMint := MINT_B, quoteMint := MINT_B, baseVault := MINT_B
    quoteVault := MINT_B, targetOrders := MINT_B, marketProgramId := MINT_B
    marketId := MINT_B }

def wlGood : WState := [⟨MINT_B, 6, 1000⟩]

/-- A buy environment whose bundle resolution is the poller's genuine
timeout status (no getBundleStatuses response ever showed a terminal
state within the 60 attempts). -/
def buyEnvTimeout : BuyEnv :=
  { prepOk := true
    jitoBundle := some BUNDLE_A
    senderSig := none
    resolved := some (pollBundleConfirmation BUNDLE_A (fun _ => none))
    dryRun := false }

def envTimeout : ListenerEnv :=
  { tx := some txdGood, now := 10, relaxFilters := false
    mintAcctRes := .error (), cabalRes := .error (), metaRes := .error ()
    buyEnv := buyEnvTimeout }

def envForged : ListenerEnv :=
  { tx := some txdForged, now := 10, relaxFilters := false
    mintAcctRes := .error (), cabalRes := .error (), metaRes := .error ()
    buyEnv := buyEnvTimeout }

/-- Witness for C1: confirmation timeout on a concrete event — the buy
returns null and recordPosition is not invoked, even though every
other gate passes. -/
theorem buy_confirmation_gating_witness :
    pollBundleConfirmation BUNDLE_A (fun _ => none)
      = { bundleId := BUNDLE_A, confirmed := false,
          error := some CONFIRMATION_TIMEOUT_MSG } ∧
    SniperEngine.buy envTimeout.buyEnv = none ∧
    (processMigrationLog envTimeout wlGood).1.recordPositionInvoked = false := by
  refine ⟨by decide, ?_⟩
  have h := buy_confirmation_gating envTimeout wlGood BUNDLE_A rfl (by decide)
    (Or.inr ⟨pollBundleConfirmation BUNDLE_A (fun _ => none), rfl, by decide⟩)
  exact h

/-- Witness for C6 at concrete events: a correctly-signed event passes
the trap check, a forged event is dropped with nothing consumed,
nothing bought, and the whitelist untouched. -/
theorem migration_trap_check_witness :
    (processMigrationLog envTimeout wlGood).1.trapPassed = true ∧
    (processMigrationLog envForged wlGood).1.consumeAttempted = false ∧
    (processMigrationLog envForged wlGood).1.buyAttempted = false ∧
    (processMigrationLog envForged wlGood).2 = wlGood := by
  have h1 := (migration_trap_check envTimeout txdGood wlGood rfl).1
  have h2 := (migration_trap_check envForged txdForged wlGood rfl).2 (by decide)
  exact ⟨by rw [h1]; decide, h2.1, h2.2.1, h2.2.2.2⟩

/-- Witness for C10 at a concrete event: with all three defensive RPCs
throwing, processing still reaches the buy. -/
theorem listener_checks_fail_open_witness :
    (processMigrationLog envTimeout wlGood).1.buyAttempted = true ∧
    (processMigrationLog envTimeout wlGood).1.authorityAborted = false := by
  have h := listener_checks_fail_open.2.2 envTimeout txdGood pkGood wlGood
    ⟨MINT_B, 6, 1000⟩ [] rfl (by decide) (by decide) (by decide) rfl rfl rfl rfl
  exact ⟨h.1, h.2.1⟩

/-! ## Sentient position manager (SentientBrain, src/unnamed/part_013) -/

def MAX_SAFE_INTEGER : ℤ := 9007199254740991

/-- SentientBrain.bigIntToSafeNumber: truncate to Number.MAX_SAFE_INTEGER. -/
def bigIntToSafeNumber (v : ℤ) : ℤ :=
  if v > MAX_SAFE_INTEGER then MAX_SAFE_INTEGER else v

/-- Loop body of fetchTokenBalanceWithRetry over the remaining attempt
indices.  `reads i` is the result of the i-th getTokenAccountBalance
call: `.ok (raw, decimals)` or `.error` when it threw.  An `.ok` read
returns unless requirePositive is set, the balance is zero, and
another attempt remains; a throw rethrows only on the last attempt. -/
def fetchBalanceGo (reads : ℕ → Except Unit (ℕ × ℕ)) (retries : ℕ)
    (requirePositive : Bool) : List ℕ → Except Unit (ℕ × ℕ)
  | [] => .ok (0, 0)
  | i :: rest =>
    match reads i with
    | .ok rd =>
      if !requirePositive || decide (0 < rd.1) || decide (i = retries - 1) then
        .ok rd
      else fetchBalanceGo reads retries requirePositive rest
    | .error _ =>
      if i = retries - 1 then .error ()
      else fetchBalanceGo reads retries requirePositive rest

/-- SentientBrain.fetchTokenBalanceWithRetry (the inter-attempt delay
does not affect the returned value). -/
def fetchTokenBalanceWithRetry (reads : ℕ → Except Unit (ℕ × ℕ))
    (retries : ℕ) (requirePositive : Bool) : Except Unit (ℕ × ℕ) :=
  fetchBalanceGo reads retries requirePositive (List.range retries)

theorem fetchBalanceGo_pos_source {reads : ℕ → Except Unit (ℕ × ℕ)}
    {retries : ℕ} {rp : Bool} {l : List ℕ} {raw dec : ℕ}
    (h : fetchBalanceGo reads retries rp l = .ok (raw, dec))
    (hpos : 0 < raw) : ∃ i ∈ l, reads i = .ok (raw, dec) := by
  induction l with
  | nil =>
    exfalso
    simp only [fetchBalanceGo, Except.ok.injEq, Prod.mk.injEq] at h
    rw [← h.1] at hpos
    exact Nat.lt_irrefl 0 hpos
  | cons i rest ih =>
    simp only [fetchBalanceGo] at h
    cases hr : reads i with
    | ok rd =>
      rw [hr] at h
      dsimp only at h
      by_cases hc : (!rp || decide (0 < rd.1) || decide (i = retries - 1)) = true
      · rw [if_pos hc] at h
        exact ⟨i, List.mem_cons_self i rest, by rw [hr, h]⟩
      · rw [if_neg hc] at h
        rcases ih h with ⟨j, hj, hjr⟩
        exact ⟨j, List.mem_cons_of_mem i hj, hjr⟩
    | error e =>
      rw [hr] at h
      dsimp only at h
      by_cases hc : i = retries - 1
      · rw [if_pos hc] at h
        exact absurd h (by simp)
      · rw [if_neg hc] at h
        rcases ih h with ⟨j, hj, hjr⟩
        exact ⟨j, List.mem_cons_of_mem i hj, hjr⟩

inductive PosStatus where
  | statusOpen
  | statusClosed
deriving Repr, DecidableEq

/-- A TradePosition record.  `amount` is the raw-unit token amount as a
JS number holding an integer (set from bigIntToSafeNumber). -/
structure TradePosition where
  mint : String
  entryPrice : ℚ
  entryTime : ℕ
  amount : ℤ
  aiScore : JSNum
  aiAnalysis : String
  status : PosStatus
  poolKeys : Option PoolKeysM := none
deriving Repr, DecidableEq

/-- Environment of one recordPosition call: the balance reads of its
fetchTokenBalanceWithRetry(mint, 30, 500, true) call, and the
getPoolPrice result (`none` when no pool keys were passed, `.error`
when the price fetch threw). -/
structure RecordEnv where
  balanceReads : ℕ → Except Unit (ℕ × ℕ)
  poolPrice : Option (Except Unit ℚ)

inductive RecordAction where
  | skippedError
  | skippedNoBalance
  | soldImmediately
  | monitoring
deriving Repr, DecidableEq

/-- SentientBrain.recordPosition: refuse to create a position unless the
on-chain balance re-read returns a strictly positive raw amount (a
throw after the bounded retries also refuses); then record the
position, persist, and either sell immediately (score below 5) or
start the monitor. -/
def recordPosition (env : RecordEnv) (mint : String) (aiScore : JSNum)
    (analysis : String) (now : ℕ) (pk : Option PoolKeysM) :
    Option TradePosition × RecordAction :=
  match fetchTokenBalanceWithRetry env.balanceReads 30 true with
  | .error _ => (none, .skippedError)
  | .ok rd =>
    if decide (0 < rd.1) then
      (some
        { mint := mint
          entryPrice :=
            match env.poolPrice with
            | some (.ok p) => if 0 < p then p else 1
            | _ => 1
          entryTime := now
          amount := bigIntToSafeNumber (rd.1 : ℤ)
          aiScore := aiScore
          aiAnalysis := analysis
          status := .statusOpen
          poolKeys := pk },
        if jsLt aiScore (.num AI_SCORE_IMMEDIATE_SELL) then .soldImmediately
        else .monitoring)
    else (none, .skippedNoBalance)

/-- Take-profit threshold chosen by the monitor: high only when the
score is strictly greater than AI_SCORE_HOLD_LONG = 8. -/
def takeProfitFor (score : JSNum) : ℚ :=
  if jsGt score (.num AI_SCORE_HOLD_LONG) then TAKE_PROFIT_HIGH
  else TAKE_PROFIT_LOW

/-- Stop-loss threshold chosen by the monitor. -/
def stopLossFor (score : JSNum) : ℚ :=
  if jsGt score (.num AI_SCORE_HOLD_LONG) then STOP_LOSS_HIGH
  else STOP_LOSS_LOW

theorem recordPosition_some_inv (env : RecordEnv) (mint : String)
    (s : JSNum) (analysis : String) (now : ℕ) (pk : Option PoolKeysM)
    (pos : TradePosition)
    (h : (recordPosition env mint s analysis now pk).1 = some pos) :
    ∃ raw dec, fetchTokenBalanceWithRetry env.balanceReads 30 true
      = .ok (raw, dec) ∧ 0 < raw := by
  unfold recordPosition at h
  cases hf : fetchTokenBalanceWithRetry env.balanceReads 30 true with
  | error e =>
    rw [hf] at h
    exact absurd h (by simp)
  | ok rd =>
    obtain ⟨raw, dec⟩ := rd
    rw [hf] at h
    dsimp only at h
    by_cases hpos : 0 < raw
    · exact ⟨raw, dec, rfl, hpos⟩
    · rw [if_neg (by simpa using hpos)] at h
      exact absurd h (by simp)

/-- C2. No-ghost-position invariant: a TradePosition is created by
recordPosition only if one of the (at most 30) on-chain balance reads
returned a strictly positive raw amount; a zero balance surviving all
retries, or a throw, yields no position. -/
theorem no_ghost_position :
    (∀ (env : RecordEnv) (mint : String) (s : JSNum) (analysis : String)
      (now : ℕ) (pk : Option PoolKeysM) (pos : TradePosition),
      (recordPosition env mint s analysis now pk).1 = some pos →
      ∃ i < 30, ∃ raw dec, env.balanceReads i = .ok (raw, dec) ∧ 0 < raw) ∧
    (∀ (env : RecordEnv) (mint : String) (s : JSNum) (analysis : String)
      (now : ℕ) (pk : Option PoolKeysM) (dec : ℕ),
      fetchTokenBalanceWithRetry env.balanceReads 30 true = .ok (0, dec) →
      (recordPosition env mint s analysis now pk).1 = none) ∧
    (∀ (env : RecordEnv) (mint : String) (s : JSNum) (analysis : String)
      (now : ℕ) (pk : Option PoolKeysM),
      fetchTokenBalanceWithRetry env.balanceReads 30 true = .error () →
      (recordPosition env mint s analysis now pk).1 = none) := by
  refine ⟨?_, ?_, ?_⟩
  · intro env mint s analysis now pk pos h
    rcases recordPosition_some_inv env mint s analysis now pk pos h with
      ⟨raw, dec, hf, hpos⟩
    rcases fetchBalanceGo_pos_source hf hpos with ⟨i, hi, hir⟩
    exact ⟨i, List.mem_range.mp hi, raw, dec, hir, hpos⟩
  · intro env mint s analysis now pk dec hf
    unfold recordPosition
    rw [hf]
    dsimp only
    rw [if_neg (by simp)]
  · intro env mint s analysis now pk hf
    unfold recordPosition
    rw [hf]

/-! ### Concrete positions for the witnesses -/

def recEnvW : RecordEnv :=
  { balanceReads := fun _ => .ok (1000, 6), poolPrice := none }

def posScore6 : TradePosition :=
  { mint := MINT_A, entryPrice := 1, entryTime := 7, amount := 1000,
    aiScore := .num 6, aiAnalysis := EMPTY_STR, status := .statusOpen,
    poolKeys := none }

def posScore3 : TradePosition :=
  { mint := MINT_A, entryPrice := 1, entryTime := 7, amount := 1000,
    aiScore := .num 3, aiAnalysis := EMPTY_STR, status := .statusOpen,
    poolKeys := none }

/-- Witness for C2: a concrete recordPosition run that does create a
position, whose balance read indeed returned a positive amount. -/
theorem recEnvW_fetch :
    fetchTokenBalanceWithRetry recEnvW.balanceReads 30 true = .ok (1000, 6) :=
  rfl

/-- Witness for C2: a concrete recordPosition run that does create a
position, whose balance read indeed returned a positive amount. -/
theorem no_ghost_position_witness :
    (recordPosition recEnvW MINT_A (.num 6) EMPTY_STR 7 none).1
      = some posScore6 ∧
    (∃ i < 30, ∃ raw dec, recEnvW.balanceReads i = .ok (raw, dec) ∧ 0 < raw) := by
  have h1 : (recordPosition recEnvW MINT_A (.num 6) EMPTY_STR 7 none).1
      = some posScore6 := by
    unfold recordPosition
    rw [recEnvW_fetch]
    rfl
  exact ⟨h1, no_ghost_position.1 recEnvW MINT_A (.num 6) EMPTY_STR 7 none
    posScore6 h1⟩

/-! ### Sell path and monitoring loop (SentientBrain.sell / monitorPosition) -/

/-- What one SentientBrain.sell call did.  `returned` is the boolean the
method returns; `sniperCalled` records whether SniperEngine.sell was
actually invoked. -/
structure SellRecord where
  sniperCalled : Bool := false
  sniperAmount : Option ℤ := none
  sniperEmergency : Bool := false
  returned : Bool := false
deriving Repr, DecidableEq

/-- Environment of one SentientBrain.sell call: DRY_RUN mode, the
balance reads of its refresh fetchTokenBalanceWithRetry call, and the
bundle id SniperEngine.sell would return. -/
structure SellEnv where
  dryRun : Bool
  sellReads : ℕ → Except Unit (ℕ × ℕ)
  sniperSellBundle : Option String

/-- SentientBrain.sell.  `pos` is the activePositions map entry for the
mint (the same object the monitor mutates); the first component of the
result is that map entry afterwards (`none` = deleted).  An
already-closed position returns true immediately without any sell. -/
def SentientBrain.sell (pos : Option TradePosition) (isEmergency : Bool)
    (overrideAmount : Option ℤ) (env : SellEnv) :
    Option TradePosition × SellRecord :=
  match pos with
  | none => (none, {})
  | some p =>
    if p.status = PosStatus.statusClosed then (some p, { returned := true })
    else if env.dryRun then (none, { returned := true })
    else
      match fetchTokenBalanceWithRetry env.sellReads
          (if isEmergency then 1 else 5) false with
      | .ok rd =>
        if (rd.1 : ℤ) ≤ 0 then (none, { returned := true })
        else
          match env.sniperSellBundle with
          | some _ =>
            (none, { sniperCalled := true,
                     sniperAmount := some (bigIntToSafeNumber (rd.1 : ℤ)),
                     sniperEmergency := isEmergency, returned := true })
          | none =>
            (some p, { sniperCalled := true,
                       sniperAmount := some (bigIntToSafeNumber (rd.1 : ℤ)),
                       sniperEmergency := isEmergency, returned := false })
      | .error _ =>
        if overrideAmount.getD p.amount ≤ 0 then (none, { returned := true })
        else
          match env.sniperSellBundle with
          | some _ =>
            (none, { sniperCalled := true,
                     sniperAmount :=
                       some (bigIntToSafeNumber (overrideAmount.getD p.amount)),
                     sniperEmergency := isEmergency, returned := true })
          | none =>
            (some p, { sniperCalled := true,
                       sniperAmount :=
                         some (bigIntToSafeNumber (overrideAmount.getD p.amount)),
                       sniperEmergency := isEmergency, returned := false })

inductive TickAction where
  | noTrigger
  | takeProfitHit (moonbag : Bool)
  | stopLossHit
deriving Repr, DecidableEq

structure TickRecord where
  cleared : Bool := false
  action : TickAction := .noTrigger
  sellRec : SellRecord := {}
deriving Repr, DecidableEq

/-- Environment of one monitor tick: the fetched price (`none` when the
price fetch failed) and the sell environment. -/
structure TickEnv where
  price : Option ℚ
  sellEnv : SellEnv

/-- One iteration of the monitorPosition setInterval callback.  On a
take-profit hit the moonbag rule computes the sell amount, the position
object is marked closed, the interval cleared, and SentientBrain.sell
is called with the override amount; a stop-loss hit does the same with
no override.  The first component is the map entry afterwards. -/
def monitorTick (p : TradePosition) (env : TickEnv) :
    Option TradePosition × TickRecord :=
  if p.status = PosStatus.statusClosed then (some p, { cleared := true })
  else
    match env.price with
    | none => (some p, {})
    | some price =>
      if price = 0 then (some p, {})
      else
        if takeProfitFor p.aiScore ≤ (price - p.entryPrice) / p.entryPrice then
          if MOONBAG_THRESHOLD_SOL
              ≤ ((p.amount : ℚ) / 10 ^ DEFAULT_TOKEN_DECIMALS) * price then
            (SentientBrain.sell
                (some { p with status := PosStatus.statusClosed }) false
                (some ⌊(p.amount : ℚ) * MOONBAG_SELL_PCT⌋) env.sellEnv).1
              |> fun entry =>
              (entry,
               { cleared := true, action := .takeProfitHit true,
                 sellRec := (SentientBrain.sell
                   (some { p with status := PosStatus.statusClosed }) false
                   (some ⌊(p.amount : ℚ) * MOONBAG_SELL_PCT⌋) env.sellEnv).2 })
          else
            (SentientBrain.sell
                (some { p with status := PosStatus.statusClosed }) false
                (some p.amount) env.sellEnv).1
              |> fun entry =>
              (entry,
               { cleared := true, action := .takeProfitHit false,
                 sellRec := (SentientBrain.sell
                   (some { p with status := PosStatus.statusClosed }) false
                   (some p.amount) env.sellEnv).2 })
        else if (price - p.entryPrice) / p.entryPrice ≤ stopLossFor p.aiScore then
          (SentientBrain.sell
              (some { p with status := PosStatus.statusClosed }) false
              none env.sellEnv).1
            |> fun entry =>
            (entry,
             { cleared := true, action := .stopLossHit,
               sellRec := (SentientBrain.sell
                 (some { p with status := PosStatus.statusClosed }) false
                 none env.sellEnv).2 })
        else (some p, {})

/-! ### Score-dependent exit theorems (C4) -/

theorem recordPosition_action_of_some (env : RecordEnv) (mint : String)
    (q : ℚ) (analysis : String) (now : ℕ) (pk : Option PoolKeysM)
    (pos : TradePosition)
    (h : (recordPosition env mint (JSNum.num q) analysis now pk).1 = some pos) :
    (recordPosition env mint (JSNum.num q) analysis now pk).2
      = if q < 5 then RecordAction.soldImmediately
        else RecordAction.monitoring := by
  unfold recordPosition at h ⊢
  cases hf : fetchTokenBalanceWithRetry env.balanceReads 30 true with
  | error e =>
    rw [hf] at h
    simp at h
  | ok rd =>
    obtain ⟨raw, dec⟩ := rd
    rw [hf] at h
    dsimp only at h ⊢
    by_cases hpos : 0 < raw
    · rw [if_pos (by simpa using hpos)]
      dsimp only
      simp only [jsLt, AI_SCORE_IMMEDIATE_SELL]
      by_cases hq : q < 5
      · rw [if_pos (by simpa using hq), if_pos hq]
      · rw [if_neg (by simpa using hq), if_neg hq]
    · rw [if_neg (by simpa using hpos)] at h
      simp at h

/-- C4 amended: a recorded position with score below 5 is sold
immediately (before any monitoring); a recorded position with score at
least 5 is monitored; the monitor applies take-profit +50% / stop-loss
-10% for every score up to and including 8, and +200% / -15% only for
scores strictly greater than 8. -/
theorem score_dependent_exits :
    (∀ (env : RecordEnv) (mint analysis : String) (now : ℕ)
      (pk : Option PoolKeysM) (q : ℚ) (pos : TradePosition),
      (recordPosition env mint (JSNum.num q) analysis now pk).1 = some pos →
      q < 5 →
      (recordPosition env mint (JSNum.num q) analysis now pk).2
        = RecordAction.soldImmediately) ∧
    (∀ (env : RecordEnv) (mint analysis : String) (now : ℕ)
      (pk : Option PoolKeysM) (q : ℚ) (pos : TradePosition),
      (recordPosition env mint (JSNum.num q) analysis now pk).1 = some pos →
      5 ≤ q →
      (recordPosition env mint (JSNum.num q) analysis now pk).2
        = RecordAction.monitoring) ∧
    (∀ q : ℚ, 5 ≤ q → q ≤ 8 →
      takeProfitFor (JSNum.num q) = 1/2 ∧
      stopLossFor (JSNum.num q) = -(1/10)) ∧
    (∀ q : ℚ, 8 < q →
      takeProfitFor (JSNum.num q) = 2 ∧
      stopLossFor (JSNum.num q) = -(3/20)) := by
  refine ⟨?_, ?_, ?_, ?_⟩
  · intro env mint analysis now pk q pos h hq
    rw [recordPosition_action_of_some env mint q analysis now pk pos h,
      if_pos hq]
  · intro env mint analysis now pk q pos h hq
    rw [recordPosition_action_of_some env mint q analysis now pk pos h,
      if_neg (not_lt.mpr hq)]
  · intro q h5 h8
    have hng : ¬ ((8:ℚ) < q) := not_lt.mpr h8
    constructor
    · simp [takeProfitFor, jsGt, AI_SCORE_HOLD_LONG, TAKE_PROFIT_LOW, hng]
    · simp [stopLossFor, jsGt, AI_SCORE_HOLD_LONG, STOP_LOSS_LOW, hng]
  · intro q h8
    constructor
    · simp [takeProfitFor, jsGt, AI_SCORE_HOLD_LONG, TAKE_PROFIT_HIGH, h8]
    · simp [stopLossFor, jsGt, AI_SCORE_HOLD_LONG, STOP_LOSS_HIGH, h8]

def posScore8 : TradePosition :=
  { mint := MINT_A, entryPrice := 1, entryTime := 0, amount := 1000000,
    aiScore := .num 8, aiAnalysis := EMPTY_STR, status := .statusOpen,
    poolKeys := none }

def sellEnvBundle : SellEnv :=
  { dryRun := false, sellReads := fun _ => .ok (1000000, 6),
    sniperSellBundle := some BUNDLE_A }

def tickEnvUp60 : TickEnv :=
  { price := some (8/5), sellEnv := sellEnvBundle }

/-- C4 counterexample: a position with score exactly 8 is monitored
with the low thresholds (+50% / -10%), not the claimed +200% / -15% —
the source selects the high pair only for aiScore strictly greater
than AI_SCORE_HOLD_LONG = 8 — and accordingly a mere +60% move already
fires its take-profit exit. -/
theorem score_eight_low_thresholds :
    takeProfitFor (JSNum.num 8) = 1/2 ∧
    stopLossFor (JSNum.num 8) = -(1/10) ∧
    takeProfitFor (JSNum.num 8) ≠ 2 ∧
    stopLossFor (JSNum.num 8) ≠ -(3/20) ∧
    (monitorTick posScore8 tickEnvUp60).2.action
      = TickAction.takeProfitHit false := by
  refine ⟨?_, ?_, ?_, ?_, ?_⟩
  · simp [takeProfitFor, jsGt, AI_SCORE_HOLD_LONG, TAKE_PROFIT_LOW]
  · simp [stopLossFor, jsGt, AI_SCORE_HOLD_LONG, STOP_LOSS_LOW]
  · simp [takeProfitFor, jsGt, AI_SCORE_HOLD_LONG, TAKE_PROFIT_LOW]
    norm_num
  · simp [stopLossFor, jsGt, AI_SCORE_HOLD_LONG, STOP_LOSS_LOW]
    norm_num
  · norm_num [monitorTick, posScore8, tickEnvUp60, sellEnvBundle,
      SentientBrain.sell, takeProfitFor, stopLossFor, jsGt,
      AI_SCORE_HOLD_LONG, TAKE_PROFIT_LOW, MOONBAG_THRESHOLD_SOL,
      DEFAULT_TOKEN_DECIMALS]
    decide

/-- Witness for C4's amended theorem at concrete scores 3, 6 and 9. -/
theorem score_dependent_exits_witness :
    (recordPosition recEnvW MINT_A (JSNum.num 3) EMPTY_STR 7 none).2
      = RecordAction.soldImmediately ∧
    (recordPosition recEnvW MINT_A (JSNum.num 6) EMPTY_STR 7 none).2
      = RecordAction.monitoring ∧
    (takeProfitFor (JSNum.num 6) = 1/2 ∧
      stopLossFor (JSNum.num 6) = -(1/10)) ∧
    (takeProfitFor (JSNum.num 9) = 2 ∧
      stopLossFor (JSNum.num 9) = -(3/20)) := by
  have h3 : (recordPosition recEnvW MINT_A (JSNum.num 3) EMPTY_STR 7 none).1
      = some posScore3 := by
    unfold recordPosition
    rw [recEnvW_fetch]
    rfl
  have h6 : (recordPosition recEnvW MINT_A (JSNum.num 6) EMPTY_STR 7 none).1
      = some posScore6 := by
    unfold recordPosition
    rw [recEnvW_fetch]
    rfl
  refine ⟨?_, ?_, ?_, ?_⟩
  · exact score_dependent_exits.1 recEnvW MINT_A EMPTY_STR 7 none 3 posScore3
      h3 (by norm_num)
  · exact score_dependent_exits.2.1 recEnvW MINT_A EMPTY_STR 7 none 6 posScore6
      h6 (by norm_num)
  · exact score_dependent_exits.2.2.1 6 (by norm_num) (by norm_num)
  · exact score_dependent_exits.2.2.2 9 (by norm_num)

/-! ### Moonbag take-profit evaluation (C5) -/

def posMoon : TradePosition :=
  { mint := MINT_A, entryPrice := 1, entryTime := 0, amount := 10000000000,
    aiScore := .num 6, aiAnalysis := EMPTY_STR, status := .statusOpen,
    poolKeys := none }

def tickEnvMoon : TickEnv :=
  { price := some 2, sellEnv := sellEnvBundle }

/-- C5 failing-input evaluation: a position worth an estimated 20000
SOL-units at take-profit time (far above the 6.0 moonbag threshold)
takes the moonbag branch, but the position object is marked closed
before SentientBrain.sell runs, so sell's already-closed guard returns
true without ever invoking SniperEngine.sell: nothing is sold, the
position does not remain open, and amountHeld is not reduced. -/
theorem moonbag_take_profit_sell_dead :
    (monitorTick posMoon tickEnvMoon).2.action
      = TickAction.takeProfitHit true ∧
    (monitorTick posMoon tickEnvMoon).2.sellRec.sniperCalled = false ∧
    (monitorTick posMoon tickEnvMoon).2.sellRec.returned = true ∧
    (monitorTick posMoon tickEnvMoon).1
      = some { posMoon with status := PosStatus.statusClosed } ∧
    ((monitorTick posMoon tickEnvMoon).1.map TradePosition.amount)
      = some 10000000000 := by
  refine ⟨?_, ?_, ?_, ?_, ?_⟩ <;>
    (norm_num [monitorTick, posMoon, tickEnvMoon, sellEnvBundle,
      SentientBrain.sell, takeProfitFor, stopLossFor, jsGt,
      AI_SCORE_HOLD_LONG, TAKE_PROFIT_LOW, MOONBAG_THRESHOLD_SOL,
      MOONBAG_SELL_PCT, DEFAULT_TOKEN_DECIMALS]
     try decide)
